import Mathlib

/-!
Shallow embedding of the phragmen-candidacy-reserve-scraper
(`src/index.ts`, `src/db.ts`): a chain-event indexer that scans Polkadot
blocks for `electionsPhragmen`/`phragmenElection` candidacy extrinsics,
matches the `balances.Reserved`/`balances.Unreserved` events emitted during
those extrinsics, normalizes the humanized amount text, and records rows in
a sqlite store inside a per-block transaction, maintaining a
last-processed-block cursor.

Machine numbers are modelled by `Nat`/`Int`; the one place the source
routes a value through an IEEE double (`parseInt` feeding `new BN(...)`)
is modelled explicitly by rounding the exact integer to the nearest
double-representable value (`roundToDouble`) and by the bn.js
number-constructor bound (`|n| < 2^53`, else its assertion throws).
-/

namespace Scraper

/-! ## Data model: the sqlite store (`src/db.ts`) -/

/-- One row of the `events` table:
`(block_number INTEGER, event_type TEXT, amount INTEGER, who TEXT,
PRIMARY KEY (block_number, who, event_type))`. -/
structure EventRow where
  blockNumber : Nat
  eventType : String
  amount : Int
  who : String
deriving Repr, DecidableEq

/-- The persistent store: the `events` table and the rows of the
`last_processed_block (block_number INTEGER PRIMARY KEY)` table. -/
structure Store where
  events : List EventRow
  lastProcessed : List Nat
deriving Repr, DecidableEq

/-- `insertEvent` (`db.ts`): `INSERT OR REPLACE INTO events ...` keyed by
the primary key `(block_number, who, event_type)`: an existing row with the
same key is replaced. -/
def insertEventRow (s : Store) (n : Nat) (ty : String) (amt : Int) (who : String) :
    Store :=
  { s with
    events :=
      s.events.filter
        (fun r => !(r.blockNumber == n && r.who == who && r.eventType == ty))
      ++ [⟨n, ty, amt, who⟩] }

/-- `setLastProcessedBlock` (`db.ts`): `INSERT OR REPLACE INTO
last_processed_block (block_number) VALUES (?)`. The primary key is
`block_number` itself, so a new block number ADDS a row; only a row with
the identical number is replaced. -/
def setLastProcessedBlockRow (s : Store) (n : Nat) : Store :=
  { s with lastProcessed := s.lastProcessed.filter (fun b => b != n) ++ [n] }

/-- The literal `746096` of `getLastProcessedBlock` (`db.ts`), whose source
comment reads: "this is the first block number with the electionsPhragmen
event on Polkadot". -/
def firstElectionsPhragmenBlock : Nat := 746096

/-- Minimum of a nonempty list of naturals. -/
def natListMin (x : Nat) : List Nat → Nat
  | [] => x
  | y :: ys => natListMin (min x y) ys

/-- `getLastProcessedBlock` (`db.ts`): `db.get("SELECT block_number FROM
last_processed_block")` takes the first row of a full scan; the column is
an `INTEGER PRIMARY KEY` (rowid alias), so the scan visits rows in
increasing `block_number` order and the first row is the minimum stored
value. Absent any row, the chain-specific default `746096` is returned. -/
def getLastProcessedBlock (s : Store) : Nat :=
  match s.lastProcessed with
  | [] => firstElectionsPhragmenBlock
  | x :: xs => natListMin x xs

/-! ## The transactional connection

`processBlock` runs `BEGIN TRANSACTION`, mutates the db, and ends with
`COMMIT` (or `ROLLBACK` in its catch block). We model the sqlite
connection as the committed store plus an optional open-transaction
workspace; `ROLLBACK` (or process exit) discards the workspace. -/

structure Db where
  committed : Store
  tx : Option Store
deriving Repr, DecidableEq

/-- The store a statement executed on this connection sees. -/
def Db.cur (d : Db) : Store := d.tx.getD d.committed

/-- `db.run("BEGIN TRANSACTION")`. -/
def Db.beginTx (d : Db) : Db := { d with tx := some d.committed }

/-- `db.run("COMMIT")`. -/
def Db.commitTx (d : Db) : Db := { committed := d.cur, tx := none }

/-- `db.run("ROLLBACK")`: the workspace is discarded. -/
def Db.rollbackTx (d : Db) : Db := { d with tx := none }

/-- What is durably on disk: only the committed store. -/
def Db.persisted (d : Db) : Store := d.committed

/-! ## Humanized chain data (`api.rpc.chain.getBlock(...).toHuman()`,
`api.query.system.events.at(...).toHuman()`) -/

/-- `event.data` after `toHuman()`: "Somehow event data can be an array or
an object" (source comment) — either a positional pair
`[who, amount]` or a named record `{ who, amount }`. -/
inductive EventData where
  | positional (fst snd : String)
  | named (who amount : String)
deriving Repr, DecidableEq

/-- JS property access `eventData.who`: defined on the named-record shape,
`undefined` (here `none`) on the array shape. -/
def EventData.whoField : EventData → Option String
  | .positional _ _ => none
  | .named w _ => some w

/-- One humanized event of the event log of the block: `e.phase.ApplyExtrinsic`
(a string when the phase is apply-extrinsic, `undefined` otherwise),
`e.event.section`, `e.event.method`, `e.event.data`. -/
structure ChainEvent where
  phaseApplyExtrinsic : Option String
  sectionName : String
  method : String
  data : EventData
deriving Repr, DecidableEq

/-- One humanized extrinsic: `ex.method.section`, `ex.method.method`,
`ex.signer.Id`. -/
structure Extrinsic where
  sectionName : String
  method : String
  signer : String
deriving Repr, DecidableEq

/-- One fetched block: its extrinsics and its event log. -/
structure Block where
  extrinsics : List Extrinsic
  events : List ChainEvent
deriving Repr, DecidableEq

/-! ## Amount normalization (`parseAmountAndWhoFromEventData`) -/

/-- `amount.replace(/,/g, "")`: remove every comma. -/
def stripCommas (s : String) : String :=
  String.mk (s.toList.filter (fun c => c != ','))

/-- `s.endsWith(post)` on ASCII text. -/
def endsWithText (s post : String) : Bool :=
  List.isSuffixOf post.toList s.toList

/-- `s.substring(0, s.length - k)` on ASCII text. -/
def dropRightChars (s : String) (k : Nat) : String :=
  String.mk (s.toList.take (s.toList.length - k))

/-- The value of one radix-digit character, or `none`. -/
def digitValue (radix : Nat) (c : Char) : Option Nat :=
  let v : Option Nat :=
    if '0' ≤ c ∧ c ≤ '9' then some (c.toNat - 48)
    else if 'a' ≤ c ∧ c ≤ 'f' then some (c.toNat - 87)
    else if 'A' ≤ c ∧ c ≤ 'F' then some (c.toNat - 55)
    else none
  match v with
  | some n => if n < radix then some n else none
  | none => none

/-- Accumulate the value of the longest leading run of radix digits;
`none` when not even one digit is present. -/
def leadDigitsVal (radix : Nat) : List Char → Option Nat → Option Nat
  | [], acc => acc
  | c :: cs, acc =>
    match digitValue radix c with
    | some v => leadDigitsVal radix cs (some (acc.getD 0 * radix + v))
    | none => acc

/-- How many halvings bring `m` below `2^53` (the shift separating a
double significand from its trailing bits), structurally recursive on a
fuel that covers the whole double exponent range. -/
def sigShift : Nat → Nat → Nat
  | 0, _ => 0
  | fuel + 1, m => if m < 2 ^ 53 then 0 else sigShift fuel (m / 2) + 1

/-- Round a non-negative integer to the nearest IEEE-754 double
(round-to-nearest, ties-to-even): exact below `2^53`, otherwise rounded to
53 significant bits. This models the fact that a JS `Number` carries only
a 53-bit significand. -/
def roundToDouble (n : Nat) : Nat :=
  if n < 2 ^ 53 then n
  else
    let k := sigShift 1100 n
    let q := n / 2 ^ k
    let r := n % 2 ^ k
    let half := 2 ^ (k - 1)
    if r < half then q * 2 ^ k
    else if half < r then (q + 1) * 2 ^ k
    else if q % 2 = 0 then q * 2 ^ k else (q + 1) * 2 ^ k

/-- JS `parseInt(s)` (radix argument omitted): skip leading whitespace,
read an optional sign, auto-detect a `0x`/`0X` hex marker (radix 16,
otherwise 10), take the longest leading run of valid digits (`NaN` — here
`none` — when it is empty), and return the value as a double. -/
def jsParseInt (s : String) : Option Int :=
  let cs := s.toList.dropWhile
    (fun c => c == ' ' || c == '\t' || c == '\n' || c == '\r')
  let signAndRest : Int × List Char :=
    match cs with
    | '-' :: rest => (-1, rest)
    | '+' :: rest => (1, rest)
    | _ => (1, cs)
  let radixAndRest : Nat × List Char :=
    match signAndRest.2 with
    | '0' :: 'x' :: rest => (16, rest)
    | '0' :: 'X' :: rest => (16, rest)
    | _ => (10, signAndRest.2)
  match leadDigitsVal radixAndRest.1 radixAndRest.2 none with
  | none => none
  | some n => some (signAndRest.1 * (roundToDouble n : Int))

/-- `new BN(number)` of bn.js (the `BN` re-exported by `@polkadot/util`): a `NaN` argument,
or any number of magnitude `≥ 2^53 (0x20000000000000)`, fails the
internal `assert` of the constructor and throws. -/
def bnFromNumber : Option Int → Except Unit Int
  | none => .error ()
  | some v => if v.natAbs < 2 ^ 53 then .ok v else .error ()

/-- Whether the comma-stripped amount text carries the `" DOT"` suffix
(`amount.endsWith(" DOT")` after `replace(/,/g, "")`). -/
def isDotDenominated (raw : String) : Bool :=
  endsWithText (stripCommas raw) " DOT"

/-- The residual numeric text handed to `parseInt`: commas stripped and,
when present, the 4-character `" DOT"` suffix removed
(`amount.substring(0, amount.length - 4)`). -/
def residualAmountText (raw : String) : String :=
  let a := stripCommas raw
  if endsWithText a " DOT" then dropRightChars a 4 else a

/-- `parseAmountAndWhoFromEventData` (`index.ts`): extract `(who, amount)`
from either event-data shape, strip commas, strip an optional `" DOT"`
suffix, run the text through `new BN(parseInt(amount))` (a throw is a
recoverable error for the catch block of the caller), multiply by `10^10` when
the text was DOT-denominated, and return `amount.toString()`. -/
def parseAmountAndWhoFromEventData (d : EventData) :
    Except Unit (String × String) :=
  let who : String :=
    match d with
    | .positional w _ => w
    | .named w _ => w
  let rawAmount : String :=
    match d with
    | .positional _ a => a
    | .named _ a => a
  match bnFromNumber (jsParseInt (residualAmountText rawAmount)) with
  | .error e => .error e
  | .ok v =>
    let planck : Int := if isDotDenominated rawAmount then v * (10 : Int) ^ 10 else v
    .ok (who, toString planck)

/-! ## Block processing (`processBlock`, `index.ts` lines 84–189) -/

/-- How one `processBlock` call ends: return `true` (commit), return
`false` (catch block ran `ROLLBACK`; the driver retries), or
`process.exit(1)` (the fatal consistency violations). -/
inductive ProcessOutcome where
  | success
  | retry
  | fatal
deriving Repr, DecidableEq

/-- How processing one extrinsic can abort the block. -/
inductive StepFail where
  | fatalStop
  | recoverable
deriving Repr, DecidableEq

/-- The event filter of `processBlock`:
`events.filter (e => e.phase.ApplyExtrinsic === i.toString() &&
e.event.section === "balances" && e.event.method === meth)`. -/
def matchingEvents (events : List ChainEvent) (i : Nat) (meth : String) :
    List ChainEvent :=
  events.filter (fun e =>
    e.phaseApplyExtrinsic == some (toString i) &&
    e.sectionName == "balances" && e.method == meth)

/-- SQLite `INTEGER`-affinity conversion of the decimal text bound by
`insertEvent` (the text is `BN.toString()` output: an optional minus sign
followed by digits). -/
def decTextToInt (s : String) : Int :=
  match s.toList with
  | '-' :: cs => -(((leadDigitsVal 10 cs none).getD 0 : Nat) : Int)
  | cs => (((leadDigitsVal 10 cs none).getD 0 : Nat) : Int)

/-- The shared body of the `submitCandidacy` and `renounceCandidacy`
branches of `processBlock`: filter the events of the block for this extrinsic
index; zero matches → skip (`continue`); more than one → `process.exit(1)`;
exactly one → `process.exit(1)` unless `event.data.who === ex.signer.Id`
(on array-shaped data `.who` is `undefined`, which never equals a signer
string), then parse the amount (a parse throw is recoverable) and
`insertEvent(db, n, rowType, amount, who)`. -/
def handleCandidacyCall (events : List ChainEvent) (i n : Nat) (ex : Extrinsic)
    (eventMethod rowType : String) (s : Store) : Except StepFail Store :=
  match matchingEvents events i eventMethod with
  | [] => .ok s
  | [e] =>
    if e.data.whoField != some ex.signer then
      .error .fatalStop
    else
      match parseAmountAndWhoFromEventData e.data with
      | .error _ => .error .recoverable
      | .ok (who, amountText) =>
        .ok (insertEventRow s n rowType (decTextToInt amountText) who)
  | _ => .error .fatalStop

/-- One iteration of the extrinsic loop of `processBlock`: extrinsics whose
section is neither `"electionsPhragmen"` nor `"phragmenElection"` (the two
historical spellings of the candidacy module) are skipped; `submitCandidacy`
expects a `balances.Reserved` event and records a `"reserve"` row;
`renounceCandidacy` expects `balances.Unreserved` and records
`"unreserve"`. -/
def processOneExtrinsic (events : List ChainEvent) (i n : Nat) (ex : Extrinsic)
    (s : Store) : Except StepFail Store :=
  if ex.sectionName != "electionsPhragmen" && ex.sectionName != "phragmenElection" then
    .ok s
  else if ex.method == "submitCandidacy" then
    handleCandidacyCall events i n ex "Reserved" "reserve" s
  else if ex.method == "renounceCandidacy" then
    handleCandidacyCall events i n ex "Unreserved" "unreserve" s
  else
    .ok s

/-- The extrinsic loop `for (let i = 0; i < extrinsics.length; i++)`,
threading the transaction workspace. -/
def processExtrinsicsFrom (events : List ChainEvent) (n : Nat) :
    List Extrinsic → Nat → Store → Except StepFail Store
  | [], _, s => .ok s
  | ex :: rest, i, s =>
    match processOneExtrinsic events i n ex s with
    | .ok s' => processExtrinsicsFrom events n rest (i + 1) s'
    | .error e => .error e

/-- `processBlock(db, api, n)`: `BEGIN TRANSACTION`; fetch the block
(`fetched = none` models an RPC failure, whose throw lands in the catch
block); run the extrinsic loop; on success `setLastProcessedBlock(db, n)`
then `COMMIT` and return `true`; on a recoverable throw `ROLLBACK` and
return `false`; on a consistency violation `process.exit(1)` — the open
transaction is never committed, so only the committed store survives. -/
def processBlock (d : Db) (fetched : Option Block) (n : Nat) :
    ProcessOutcome × Db :=
  let d1 := d.beginTx
  match fetched with
  | none => (.retry, d1.rollbackTx)
  | some b =>
    match processExtrinsicsFrom b.events n b.extrinsics 0 d1.cur with
    | .error .fatalStop => (.fatal, ⟨d1.committed, none⟩)
    | .error .recoverable => (.retry, d1.rollbackTx)
    | .ok s' =>
      (.success, Db.commitTx ⟨d1.committed, some (setLastProcessedBlockRow s' n)⟩)

/-! ## The scan driver (`main`, `index.ts` lines 15–81) -/

/-- `startBlock = (await getLastProcessedBlock(db)) + 1`. -/
def startBlockOf (s : Store) : Nat := getLastProcessedBlock s + 1

/-- The fixed backoff of the retry path:
`setTimeout(resolve, 60_000)` ("Retrying in 60 seconds"). -/
def retryBackoffMillis : Nat := 60000

/-- The scan loop `while (curBlock < endBlock)`: call `processBlock`; on
success advance `curBlock`, otherwise sleep the fixed backoff and
re-attempt the same block; a fatal outcome is `process.exit(1)`.
`fetch blk att` is the response of the chain-client stub to the `att`-th attempt
at block `blk` (the source has no retry bound; `fuel` only bounds how far
this model unrolls the loop). Returns the trace of attempts — block number,
outcome, and the persisted store right after the attempt — and `some` final
connection when the loop left the range normally. -/
def scanLoop (fetch : Nat → Nat → Option Block) :
    Nat → Db → Nat → Nat → Nat →
      List (Nat × ProcessOutcome × Store) × Option Db
  | 0, _, _, _, _ => ([], none)
  | fuel + 1, d, cur, endBlock, att =>
    if cur < endBlock then
      match processBlock d (fetch cur att) cur with
      | (ProcessOutcome.success, d') =>
        ((cur, ProcessOutcome.success, d'.persisted) ::
            (scanLoop fetch fuel d' (cur + 1) endBlock 0).1,
          (scanLoop fetch fuel d' (cur + 1) endBlock 0).2)
      | (ProcessOutcome.retry, d') =>
        ((cur, ProcessOutcome.retry, d'.persisted) ::
            (scanLoop fetch fuel d' cur endBlock (att + 1)).1,
          (scanLoop fetch fuel d' cur endBlock (att + 1)).2)
      | (ProcessOutcome.fatal, d') =>
        ([(cur, ProcessOutcome.fatal, d'.persisted)], none)
    else ([], some d)

/-! ## Aggregation (`fetchNetReserves`, `db.ts` lines 89–106) -/

/-- The `GROUP BY who` group of one account. -/
def groupRows (rows : List EventRow) (who : String) : List EventRow :=
  rows.filter (fun r => r.who == who)

/-- `SUM(CASE WHEN event_type = ty THEN amount ELSE 0 END)` over a group. -/
def sumCase (g : List EventRow) (ty : String) : Int :=
  (g.map (fun r => if r.eventType == ty then r.amount else 0)).sum

/-- The aggregation query of `fetchNetReserves`: for each distinct `who`,
the reserve-case sum minus the unreserve-case sum of its group. -/
def fetchNetReservesRows (rows : List EventRow) : List (String × Int) :=
  ((rows.map (fun r => r.who)).dedup).map (fun w =>
    (w, sumCase (groupRows rows w) "reserve" - sumCase (groupRows rows w) "unreserve"))

/-- The sqlite connection handle: whether it is still open. -/
structure Conn where
  isOpen : Bool
deriving Repr, DecidableEq

/-- `db.close()`. -/
def Conn.closeIt (_ : Conn) : Conn := ⟨false⟩

/-- `fetchNetReserves(db)`: the query either returns rows or throws
(`queryFails`), and the `finally` clause closes the connection on BOTH
paths before the function returns. -/
def fetchNetReservesConn (c : Conn) (rows : List EventRow) (queryFails : Bool) :
    Except Unit (List (String × Int)) × Conn :=
  if queryFails then (.error (), c.closeIt)
  else (.ok (fetchNetReservesRows rows), c.closeIt)

/-- The open-flag each successive db operation of `main` sees, in program
order: `fetchNetReserves(db)` (which closes `db` in its `finally`), then
`getLastProcessedBlock(db)`, then one `processBlock(db, api, _)` per
scanned block, then the final `fetchNetReserves(db)`, then `db.close()`. -/
def mainConnFlags (blockCount : Nat) : List Bool :=
  let c0 : Conn := ⟨true⟩
  let f1 := c0.isOpen
  let c1 := (fetchNetReservesConn c0 [] false).2
  let f2 := c1.isOpen
  let blockFlags := List.replicate blockCount c1.isOpen
  let f4 := c1.isOpen
  let c2 := (fetchNetReservesConn c1 [] false).2
  let f5 := c2.isOpen
  f1 :: f2 :: (blockFlags ++ [f4, f5])

/-! ## Concrete fixtures shared by the theorems -/

/-- A `submitCandidacy` extrinsic of the candidacy module signed by `sg`. -/
def submitCandidacyEx (sg : String) : Extrinsic :=
  ⟨"electionsPhragmen", "submitCandidacy", sg⟩

/-- A `balances.Reserved` event at phase `ph` with named-record data. -/
def reservedEvent (ph who amt : String) : ChainEvent :=
  ⟨some ph, "balances", "Reserved", .named who amt⟩

/-- The empty store. -/
def emptyStore : Store := ⟨[], []⟩

/-- A fresh connection on the empty store, no open transaction. -/
def emptyDb : Db := ⟨emptyStore, none⟩

/-- `Db.cur` right after `BEGIN TRANSACTION` is the committed store. -/
theorem Db.cur_beginTx (d : Db) : d.beginTx.cur = d.committed := rfl

/-! ## C1 — per-block transactional atomicity -/

/-- Claim C1: for every block, all DepositEvent inserts and the ScanCursor
update performed while processing that block are committed in a single
transaction: if any step before commit fails with a recoverable error,
`processBlock` leaves the persisted store (events and cursor) exactly as it
was and ends with no open transaction; and on success the persisted store
is precisely the fully processed event set together with the cursor row for
this block, written in one commit. -/
theorem C1_per_block_transaction_atomicity (d : Db) (fetched : Option Block)
    (n : Nat) :
    ((processBlock d fetched n).1 ≠ ProcessOutcome.success →
      (processBlock d fetched n).2.persisted = d.persisted ∧
      (processBlock d fetched n).2.tx = none) ∧
    ((processBlock d fetched n).1 = ProcessOutcome.success →
      ∃ b s', fetched = some b ∧
        processExtrinsicsFrom b.events n b.extrinsics 0 d.persisted =
          Except.ok s' ∧
        (processBlock d fetched n).2.persisted =
          setLastProcessedBlockRow s' n) := by
  cases fetched with
  | none =>
    refine ⟨fun _ => ⟨rfl, rfl⟩, fun h => ?_⟩
    simp [processBlock, Db.beginTx, Db.rollbackTx] at h
  | some b =>
    have hcur : (Db.beginTx d).cur = d.committed := rfl
    cases hpe : processExtrinsicsFrom b.events n b.extrinsics 0 d.committed with
    | ok s' =>
      constructor
      · intro hne
        exfalso
        apply hne
        simp [processBlock, Db.beginTx, Db.cur, hpe]
      · intro _
        refine ⟨b, s', rfl, hpe, ?_⟩
        simp [processBlock, Db.beginTx, Db.cur, hpe, Db.commitTx, Db.persisted]
    | error e =>
      cases e with
      | fatalStop =>
        refine ⟨fun _ => ?_, fun h => ?_⟩
        · constructor <;>
            simp [processBlock, Db.beginTx, Db.cur, hpe, Db.persisted]
        · simp [processBlock, Db.beginTx, Db.cur, hpe] at h
      | recoverable =>
        refine ⟨fun _ => ?_, fun h => ?_⟩
        · constructor <;>
            simp [processBlock, Db.beginTx, Db.cur, hpe, Db.rollbackTx,
              Db.persisted]
        · simp [processBlock, Db.beginTx, Db.cur, hpe] at h

/-- Witness for C1 at a concrete failing fetch: the rollback hypothesis is
discharged and the persisted store is untouched. -/
theorem C1_witness_rollback_concrete :
    (processBlock emptyDb none 0).2.persisted = emptyDb.persisted ∧
    (processBlock emptyDb none 0).2.tx = none :=
  (C1_per_block_transaction_atomicity emptyDb none 0).1 (by decide)

/-! ## C2 — zero matches skip, duplicate matches are fatal -/

/-- A block whose first `submitCandidacy` extrinsic has exactly one
matching `Reserved` event (so a row is inserted into the transaction) and
whose second has two matching `Reserved` events (the fatal cardinality
violation). -/
def dupEventsBlock : Block :=
  ⟨[submitCandidacyEx "A", submitCandidacyEx "B"],
   [reservedEvent "0" "A" "100",
    reservedEvent "1" "B" "100", reservedEvent "1" "B" "100"]⟩

/-- Claim C2: an extrinsic with zero matching events is skipped without
error and the block still commits (cursor row written, no event row for
that extrinsic); an extrinsic with more than one matching event is fatal
and no partial rows for the block persist (here the row already inserted
for the first extrinsic of `dupEventsBlock` is discarded with the
uncommitted transaction). -/
theorem C2_zero_skip_and_duplicate_fatal (d : Db) (n : Nat) (sg : String)
    (evs : List ChainEvent) (hzero : matchingEvents evs 0 "Reserved" = []) :
    processBlock d (some ⟨[submitCandidacyEx sg], evs⟩) n =
      (ProcessOutcome.success, ⟨setLastProcessedBlockRow d.persisted n, none⟩) ∧
    (processBlock d (some dupEventsBlock) n).1 = ProcessOutcome.fatal ∧
    (processBlock d (some dupEventsBlock) n).2.persisted = d.persisted := by
  refine ⟨?_, rfl, rfl⟩
  simp [processBlock, Db.beginTx, Db.cur, processExtrinsicsFrom,
    processOneExtrinsic, submitCandidacyEx, handleCandidacyCall, hzero,
    Db.commitTx, Db.persisted]

/-- Witness for C2 at a concrete block with no events at all: the
zero-match hypothesis is discharged, the block commits with only the
cursor row, and the duplicate-event block is fatal with nothing
persisted. -/
theorem C2_witness_concrete :
    processBlock emptyDb (some ⟨[submitCandidacyEx "X"], []⟩) 5 =
      (ProcessOutcome.success,
        ⟨setLastProcessedBlockRow emptyDb.persisted 5, none⟩) ∧
    (processBlock emptyDb (some dupEventsBlock) 5).1 = ProcessOutcome.fatal ∧
    (processBlock emptyDb (some dupEventsBlock) 5).2.persisted =
      emptyDb.persisted :=
  C2_zero_skip_and_duplicate_fatal emptyDb 5 "X" [] (by decide)

/-! ## C3 — positional/causal event matching -/

/-- An event no candidacy filter matches (wrong module and method, and no
apply-extrinsic phase). -/
def noiseEvent : ChainEvent :=
  ⟨none, "system", "ExtrinsicSuccess", .positional "x" "y"⟩

/-- Claim C3: an event is matched to the extrinsic at index `i` iff its
phase marker records apply-extrinsic `i`, its module is `balances`, and
its method is the expected one; the match result is unchanged by inserting
any number of non-matching events into the event log; and the two
historical spellings of the candidacy module are processed identically. -/
theorem C3_phase_module_method_matching (evs pre noise post : List ChainEvent)
    (i : Nat) (meth : String) (e : ChainEvent) :
    (e ∈ matchingEvents evs i meth ↔
      e ∈ evs ∧ e.phaseApplyExtrinsic = some (toString i) ∧
        e.sectionName = "balances" ∧ e.method = meth) ∧
    ((∀ x ∈ noise, ¬(x.phaseApplyExtrinsic = some (toString i) ∧
        x.sectionName = "balances" ∧ x.method = meth)) →
      matchingEvents (pre ++ noise ++ post) i meth =
        matchingEvents (pre ++ post) i meth) ∧
    (∀ (m sg : String) (n : Nat) (s : Store),
      processOneExtrinsic evs i n ⟨"electionsPhragmen", m, sg⟩ s =
        processOneExtrinsic evs i n ⟨"phragmenElection", m, sg⟩ s) := by
  refine ⟨?_, ?_, ?_⟩
  · simp [matchingEvents, List.mem_filter, and_assoc]
  · intro hn
    have hnil : noise.filter (fun e =>
        e.phaseApplyExtrinsic == some (toString i) &&
        e.sectionName == "balances" && e.method == meth) = [] := by
      rw [List.filter_eq_nil_iff]
      intro x hx
      have := hn x hx
      simp only [Bool.and_eq_true, beq_iff_eq, not_and] at this ⊢
      tauto
    simp [matchingEvents, List.filter_append, hnil]
  · intro m sg n s
    rfl

/-- Witness for C3: the noise-insertion hypothesis is discharged at a
concrete unrelated event, leaving the match result unchanged. -/
theorem C3_witness_noise_concrete :
    matchingEvents ([] ++ [noiseEvent] ++ [reservedEvent "0" "A" "100"]) 0
        "Reserved" =
      matchingEvents ([] ++ [reservedEvent "0" "A" "100"]) 0 "Reserved" :=
  (C3_phase_module_method_matching [reservedEvent "0" "A" "100"] [] [noiseEvent]
      [reservedEvent "0" "A" "100"] 0 "Reserved" noiseEvent).2.1 (by decide)

/-! ## C4 — positional event data is rejected by the signer check -/

/-- A block whose single matching `Reserved` event carries positional
(array-shaped) data whose first element equals the signer of its
extrinsic. -/
def positionalSignerBlock : Block :=
  ⟨[submitCandidacyEx "A"],
   [⟨some "0", "balances", "Reserved", EventData.positional "A" "100"⟩]⟩

/-- The same block with the named-record data shape. -/
def namedSignerBlock : Block :=
  ⟨[submitCandidacyEx "A"], [reservedEvent "0" "A" "100"]⟩

/-- Claim C4 evaluated on the code: the signer consistency check reads the
named field `who` of the event data BEFORE the shape-polymorphic
extraction runs, so on positional data that field is `undefined` and the
run halts fatally even though the first element equals the signer —
nothing is recorded. With the named-record shape and a matching `who` the
event IS recorded. -/
theorem C4_positional_pair_halts_fatally (d : Db) (n : Nat) :
    ((processBlock d (some positionalSignerBlock) n).1 = ProcessOutcome.fatal ∧
      (processBlock d (some positionalSignerBlock) n).2.persisted =
        d.persisted) ∧
    ((processBlock d (some namedSignerBlock) n).1 = ProcessOutcome.success ∧
      (processBlock d (some namedSignerBlock) n).2.persisted =
        setLastProcessedBlockRow
          (insertEventRow d.persisted n "reserve" 100 "A") n) := by
  exact ⟨⟨rfl, rfl⟩, ⟨rfl, rfl⟩⟩

/-! ## C5 — exactness of amount normalization -/

/-- Claim C5 evaluated on the code: the amount text is routed through JS
`parseInt`, i.e. through an IEEE double. `9007199254740993 = 2^53 + 1`
already rounds to `2^53`, and any value of magnitude `≥ 2^53` makes the
`BN` number constructor throw, so normalization fails outright at
`"9007199254740992" = 2^53` instead of returning the parsed integer. Below
`2^53` the claimed formulas do hold, including the `10^10` unit scaling. -/
theorem C5_amount_passes_through_double :
    parseAmountAndWhoFromEventData (.named "A" "9007199254740992") =
      .error () ∧
    jsParseInt "9007199254740993" = some 9007199254740992 ∧
    parseAmountAndWhoFromEventData (.named "A" "9,007,199,254,740,991") =
      .ok ("A", "9007199254740991") ∧
    parseAmountAndWhoFromEventData (.named "A" "1,234 DOT") =
      .ok ("A", "12340000000000") := by
  exact ⟨rfl, rfl, rfl, rfl⟩

/-! ## C6 — malformed amounts -/

/-- Counterexample to claim C6 as stated: `"500x"` is not a valid
non-negative integer literal, yet normalization does not fail — `parseInt`
silently parses the numeric prefix `500`. -/
theorem C6_counterexample_trailing_garbage :
    parseAmountAndWhoFromEventData (.named "A" "500x") = .ok ("A", "500") :=
  rfl

/-- A block whose single matching event has an amount text with no numeric
prefix at all, the only way the normalization path can throw. -/
def malformedAmountBlock : Block :=
  ⟨[submitCandidacyEx "A"], [reservedEvent "0" "A" "abc"]⟩

/-- Claim C6 as amended: normalization fails exactly when the residual
text (after stripping commas and the optional `" DOT"` suffix) has no
parseable numeric value under JS `parseInt` semantics of magnitude below
`2^53`; trailing garbage after digits (and a fractional part) is silently
truncated to the numeric prefix rather than failing; and when
normalization does throw inside block processing, the error is caught and
treated as retriable (transaction rolled back), not as fatal. -/
theorem C6_malformed_amount_behavior :
    (∀ (who raw : String),
      (∃ p, parseAmountAndWhoFromEventData (.named who raw) = .ok p) ↔
        (∃ v, jsParseInt (residualAmountText raw) = some v ∧
          v.natAbs < 2 ^ 53)) ∧
    parseAmountAndWhoFromEventData (.named "A" "12.5") = .ok ("A", "12") ∧
    (∀ (d : Db) (n : Nat),
      processBlock d (some malformedAmountBlock) n =
        (ProcessOutcome.retry, ⟨d.persisted, none⟩)) := by
  refine ⟨?_, rfl, fun d n => rfl⟩
  intro who raw
  cases h : jsParseInt (residualAmountText raw) with
  | none => simp [parseAmountAndWhoFromEventData, bnFromNumber, h]
  | some v =>
    by_cases hv : v.natAbs < 9007199254740992
    · simp [parseAmountAndWhoFromEventData, bnFromNumber, h, hv]
    · simp [parseAmountAndWhoFromEventData, bnFromNumber, h, hv]

/-- Witness for C6: the retriable outcome at a concrete store and block
number. -/
theorem C6_witness_retriable_concrete :
    processBlock emptyDb (some malformedAmountBlock) 7 =
      (ProcessOutcome.retry, ⟨emptyDb.persisted, none⟩) :=
  C6_malformed_amount_behavior.2.2 emptyDb 7

/-! ## Scan-loop trace lemmas -/

/-- Every attempt in a scan-loop trace is at a block at or above the
starting block: the loop never goes backwards. -/
theorem scanLoop_trace_block_ge (fetch : Nat → Nat → Option Block) :
    ∀ (fuel : Nat) (d : Db) (cur endBlock att : Nat)
      (p : Nat × ProcessOutcome × Store),
      p ∈ (scanLoop fetch fuel d cur endBlock att).1 → cur ≤ p.1 := by
  intro fuel
  induction fuel with
  | zero =>
    intro d cur endBlock att p hp
    simp [scanLoop] at hp
  | succ k ih =>
    intro d cur endBlock att p hp
    rw [scanLoop] at hp
    by_cases hc : cur < endBlock
    · rw [if_pos hc] at hp
      rcases hpb : processBlock d (fetch cur att) cur with ⟨out, d'⟩
      rw [hpb] at hp
      rcases out with _ | _ | _
      · rcases List.mem_cons.mp hp with h | h
        · rw [h]
        · exact Nat.le_of_succ_le (ih _ _ _ _ p h)
      · rcases List.mem_cons.mp hp with h | h
        · rw [h]
        · exact ih _ _ _ _ p h
      · rcases List.mem_cons.mp hp with h | h
        · rw [h]
        · simp at h
    · rw [if_neg hc] at hp
      simp at hp

/-- The first attempt a scan-loop trace records is at the starting
block. -/
theorem scanLoop_head_block (fetch : Nat → Nat → Option Block)
    (fuel : Nat) (d : Db) (cur endBlock att : Nat)
    (p : Nat × ProcessOutcome × Store) (tr : List (Nat × ProcessOutcome × Store))
    (h : (scanLoop fetch fuel d cur endBlock att).1 = p :: tr) : p.1 = cur := by
  cases fuel with
  | zero => simp [scanLoop] at h
  | succ k =>
    rw [scanLoop] at h
    by_cases hc : cur < endBlock
    · rw [if_pos hc] at h
      rcases hpb : processBlock d (fetch cur att) cur with ⟨out, d'⟩
      rw [hpb] at h
      rcases out with _ | _ | _ <;>
        · injection h with h1 _
          rw [← h1]
    · rw [if_neg hc] at h
      simp at h

/-! ## C7 — resume point and the seed of the cursor -/

/-- Claim C7 evaluated on the code: scanning always starts at
(persisted cursor) + 1 and every block the loop attempts lies strictly
above the persisted cursor, so the cursor block is never reprocessed.
BUT when no cursor row is persisted the seed is `746096` — the block the
source itself documents as "the first block number with the
electionsPhragmen event", NOT the block immediately before it — so the
first scanned block is `746097` and the earliest relevant block is never
scanned. -/
theorem C7_resume_at_cursor_plus_one (s0 : Store)
    (fetch : Nat → Nat → Option Block) (fuel endBlock : Nat) (d : Db) :
    startBlockOf s0 = getLastProcessedBlock s0 + 1 ∧
    (∀ p ∈ (scanLoop fetch fuel d (startBlockOf s0) endBlock 0).1,
      getLastProcessedBlock s0 < p.1) ∧
    (s0.lastProcessed = [] →
      startBlockOf s0 = firstElectionsPhragmenBlock + 1 ∧
      startBlockOf s0 ≠ firstElectionsPhragmenBlock) := by
  refine ⟨rfl, ?_, ?_⟩
  · intro p hp
    have h := scanLoop_trace_block_ge fetch fuel d (startBlockOf s0)
      endBlock 0 p hp
    simp only [startBlockOf] at h
    omega
  · intro h
    constructor
    · simp [startBlockOf, getLastProcessedBlock, h]
    · simp [startBlockOf, getLastProcessedBlock, h, firstElectionsPhragmenBlock]

/-- Witness for C7 with no persisted cursor: the seed hypothesis is
discharged on the empty store and the first scanned block is `746097`,
one past the first block that contains a relevant event. -/
theorem C7_witness_empty_cursor :
    startBlockOf emptyStore = firstElectionsPhragmenBlock + 1 ∧
    startBlockOf emptyStore ≠ firstElectionsPhragmenBlock :=
  (C7_resume_at_cursor_plus_one emptyStore (fun _ _ => none) 0 0 emptyDb).2.2
    rfl

/-! ## C8 — retry keeps the block, success advances it -/

/-- Local well-formedness of a scan-loop trace: a `retry` outcome is
followed by an attempt at the same block, a `success` outcome by an
attempt at the next block. -/
def traceStepOK : List (Nat × ProcessOutcome × Store) → Prop
  | (b1, o1, _) :: (b2, o2, s2) :: rest =>
    (o1 = ProcessOutcome.retry → b2 = b1) ∧
    (o1 = ProcessOutcome.success → b2 = b1 + 1) ∧
    traceStepOK ((b2, o2, s2) :: rest)
  | _ => True

/-- Every scan-loop trace is locally well-formed. -/
theorem scanLoop_traceStepOK (fetch : Nat → Nat → Option Block) :
    ∀ (fuel : Nat) (d : Db) (cur endBlock att : Nat),
      traceStepOK (scanLoop fetch fuel d cur endBlock att).1 := by
  intro fuel
  induction fuel with
  | zero =>
    intro d cur endBlock att
    simp [scanLoop, traceStepOK]
  | succ k ih =>
    intro d cur endBlock att
    rw [scanLoop]
    by_cases hc : cur < endBlock
    · rw [if_pos hc]
      rcases hpb : processBlock d (fetch cur att) cur with ⟨out, d'⟩
      rcases out with _ | _ | _
      · rcases htr : (scanLoop fetch k d' (cur + 1) endBlock 0).1
            with _ | ⟨⟨b2, o2, s2⟩, tr⟩
        · simp [traceStepOK, htr]
        · have hb2 : b2 = cur + 1 :=
            scanLoop_head_block fetch k d' (cur + 1) endBlock 0 _ tr htr
          have hok := ih d' (cur + 1) endBlock 0
          rw [htr] at hok
          simp only [htr]
          exact ⟨fun hco => ProcessOutcome.noConfusion hco, fun _ => hb2, hok⟩
      · rcases htr : (scanLoop fetch k d' cur endBlock (att + 1)).1
            with _ | ⟨⟨b2, o2, s2⟩, tr⟩
        · simp [traceStepOK, htr]
        · have hb2 : b2 = cur :=
            scanLoop_head_block fetch k d' cur endBlock (att + 1) _ tr htr
          have hok := ih d' cur endBlock (att + 1)
          rw [htr] at hok
          simp only [htr]
          exact ⟨fun _ => hb2, fun hco => ProcessOutcome.noConfusion hco, hok⟩
      · simp [traceStepOK]
    · rw [if_neg hc]
      simp [traceStepOK]

/-- A chain-client stub that fails the fetch of block `blk` on its first
two attempts and succeeds (with an empty block) from the third attempt
on. -/
def failTwiceAt (blk : Nat) : Nat → Nat → Option Block :=
  fun b att => if b == blk && att < 2 then none else some ⟨[], []⟩

/-- The store holding only the cursor row for block 99. -/
def storeBefore100 : Store := ⟨[], [99]⟩

/-- A connection on `storeBefore100` with no open transaction. -/
def dbBefore100 : Db := ⟨storeBefore100, none⟩

/-- Claim C8: a failed attempt never advances the current block (retry
re-attempts the same block, success moves to the next, in order); the
backoff is the fixed 60 seconds; and with a stub failing block 100 exactly
twice, the loop retries block 100 twice — the persisted cursor still at
99 = K - 1 after each failure — and commits it on the third attempt. -/
theorem C8_retry_reattempts_same_block (fetch : Nat → Nat → Option Block)
    (fuel : Nat) (d : Db) (cur endBlock att : Nat) :
    traceStepOK (scanLoop fetch fuel d cur endBlock att).1 ∧
    retryBackoffMillis = 60000 ∧
    scanLoop (failTwiceAt 100) 10 dbBefore100 100 101 0 =
      ([(100, ProcessOutcome.retry, storeBefore100),
        (100, ProcessOutcome.retry, storeBefore100),
        (100, ProcessOutcome.success, ⟨[], [99, 100]⟩)],
       some ⟨⟨[], [99, 100]⟩, none⟩) ∧
    getLastProcessedBlock storeBefore100 = 99 := by
  exact ⟨scanLoop_traceStepOK fetch fuel d cur endBlock att, rfl, rfl, rfl⟩

/-! ## C9 — net-position aggregation -/

/-- Looking up a key in an association list built by pairing each key of a
list with a function of it returns that function value whenever the key
occurs. -/
theorem lookup_pair_map {β : Type} (f : String → β) :
    ∀ (l : List String) (who : String), who ∈ l →
      (l.map (fun w => (w, f w))).lookup who = some (f who) := by
  intro l
  induction l with
  | nil => intro who h; cases h
  | cons x xs ih =>
    intro who h
    by_cases hx : who = x
    · subst hx
      simp [List.lookup]
    · have hmem : who ∈ xs := by
        rcases List.mem_cons.mp h with h1 | h1
        · exact absurd h1 hx
        · exact h1
      have hbeq : (who == x) = false := beq_eq_false_iff_ne.mpr hx
      simp [List.lookup, hbeq, ih who hmem]

/-- The per-group case sum equals a direct filtered sum over the whole
table. -/
theorem sumCase_groupRows_eq (who ty : String) :
    ∀ rows : List EventRow,
      sumCase (groupRows rows who) ty =
        ((rows.filter (fun r => r.who == who && r.eventType == ty)).map
          (fun r => r.amount)).sum := by
  intro rows
  induction rows with
  | nil => rfl
  | cons r rs ih =>
    unfold groupRows sumCase at ih ⊢
    rw [List.filter_cons, List.filter_cons]
    by_cases h1 : r.who = who
    · by_cases h2 : r.eventType = ty
      · simp [h1, h2]
        simpa using ih
      · simp [h1, h2]
        simpa using ih
    · simp [h1]
      simpa using ih

/-- The three DepositEvents of the example in the claim. -/
def exampleRows : List EventRow :=
  [⟨1, "reserve", 100, "A"⟩, ⟨2, "unreserve", 30, "A"⟩, ⟨1, "reserve", 50, "B"⟩]

/-- Claim C9: for every stored DepositEvent set, the aggregation returns,
for each account appearing in the set, the sum of its reserve amounts
minus the sum of its unreserve amounts; on the example rows it yields
A = 70 and B = 50. -/
theorem C9_net_positions (rows : List EventRow) (who : String)
    (hwho : who ∈ rows.map (fun r => r.who)) :
    (fetchNetReservesRows rows).lookup who =
      some
        (((rows.filter (fun r => r.who == who && r.eventType == "reserve")).map
            (fun r => r.amount)).sum -
          ((rows.filter
              (fun r => r.who == who && r.eventType == "unreserve")).map
            (fun r => r.amount)).sum) ∧
    fetchNetReservesRows exampleRows = [("A", 70), ("B", 50)] := by
  constructor
  · rw [fetchNetReservesRows,
      lookup_pair_map _ _ who (List.mem_dedup.mpr hwho),
      sumCase_groupRows_eq, sumCase_groupRows_eq]
  · rfl

/-- Witness for C9: the membership hypothesis is discharged for account
`"A"` of the example rows. -/
theorem C9_witness_example :
    (fetchNetReservesRows exampleRows).lookup "A" =
      some
        (((exampleRows.filter
              (fun r => r.who == "A" && r.eventType == "reserve")).map
            (fun r => r.amount)).sum -
          ((exampleRows.filter
              (fun r => r.who == "A" && r.eventType == "unreserve")).map
            (fun r => r.amount)).sum) ∧
    fetchNetReservesRows exampleRows = [("A", 70), ("B", 50)] :=
  C9_net_positions exampleRows "A" (by decide)

/-! ## C10 — fetchNetReserves closes the connection it is given -/

/-- Claim C10: `fetchNetReserves` closes the connection before returning on
both the success and the failure path (its `finally` clause), so after the
first `fetchNetReserves` call of `main`, every later store operation of the
run — reading the cursor, each block, the final aggregation, the final
`close` — is issued against an already-closed connection. -/
theorem C10_connection_closed_after_first_fetch (blockCount : Nat) (c : Conn)
    (rows : List EventRow) (queryFails : Bool) :
    (fetchNetReservesConn c rows queryFails).2.isOpen = false ∧
    (mainConnFlags blockCount).head? = some true ∧
    (∀ b ∈ (mainConnFlags blockCount).tail, b = false) := by
  refine ⟨?_, rfl, ?_⟩
  · cases queryFails <;> rfl
  · intro b hb
    rw [show mainConnFlags blockCount =
        true :: false :: (List.replicate blockCount false ++ [false, false])
      from rfl] at hb
    simp only [List.tail_cons] at hb
    rcases List.mem_cons.mp hb with h | h
    · exact h
    · rcases List.mem_append.mp h with h2 | h2
      · exact List.eq_of_mem_replicate h2
      · simp only [List.mem_cons, List.not_mem_nil, or_false] at h2
        rcases h2 with h3 | h3 <;> exact h3

/-- Witness for C10: the failure path of a concrete call also leaves the
connection closed, and the flag of a concrete later operation is
discharged to be closed. -/
theorem C10_witness_concrete :
    (fetchNetReservesConn ⟨true⟩ [] true).2.isOpen = false :=
  (C10_connection_closed_after_first_fetch 2 ⟨true⟩ [] true).1

end Scraper
